import Mathlib

/-!
Shallow embedding of the Scarb-based crate-derivation layer
(`crates/cairo-lang-language-server/src/project/scarb.rs`).

Rust paths, the filesystem, and the serde-based conversions of external
crates are modelled explicitly; the functions `project_crates`,
`validate_and_chop_source_path`, `scarb_package_edition`,
`scarb_cfg_set_to_cairo`, `scarb_package_experimental_features` and
`scarb_metadata` are translated from the source.
-/

namespace ScarbProject

/-- A string of the host operating system: either valid UTF-8 text, or an
unrepresentable byte sequence (identified by a tag).  Models `std::ffi::OsStr`
at the granularity the source observes it (`OsStr::to_str` succeeds or not). -/
inductive OsStr where
  | utf8 (s : String)
  | nonUtf8 (tag : Nat)
deriving DecidableEq, Repr

/-- A path component, as in `std::path::Component`: a normal name or a `..`
reference to the parent directory. -/
inductive PathComponent where
  | normal (s : OsStr)
  | parentDir
deriving DecidableEq, Repr

/-- Models `std::path::Path`: an absoluteness flag plus the list of components. -/
structure FsPath where
  absolute : Bool
  components : List PathComponent
deriving DecidableEq, Repr

/-- `Path::parent`: drop the last component; `none` for a root or empty path. -/
def FsPath.parent (p : FsPath) : Option FsPath :=
  match p.components with
  | [] => none
  | _ :: _ => some { absolute := p.absolute, components := p.components.dropLast }

/-- `Path::is_absolute`. -/
def FsPath.is_absolute (p : FsPath) : Bool :=
  p.absolute

/-- `Path::file_name`: the last component when it is a normal name. -/
def FsPath.file_name (p : FsPath) : Option OsStr :=
  match p.components.getLast? with
  | some (.normal s) => some s
  | _ => none

/-- Index of the last occurrence of `'.'` in a character list, scanning from
position `i`, with `acc` the best index found so far. -/
def lastDotIdx : List Char → Nat → Option Nat → Option Nat
  | [], _, acc => acc
  | c :: rest, i, acc => lastDotIdx rest (i + 1) (if c = '.' then some i else acc)

/-- The file-stem rule of `std::path`: the portion of the file name before the
final `.`; the whole name when there is no `.` or when the only `.` is the
leading character. -/
def rustFileStem (name : String) : String :=
  match lastDotIdx name.toList 0 none with
  | none => name
  | some 0 => name
  | some i => String.mk (name.toList.take i)

/-- `file_stem` on an OS string: strip the extension of UTF-8 text; a
non-UTF-8 name keeps a non-UTF-8 stem. -/
def OsStr.stem : OsStr → OsStr
  | .utf8 s => .utf8 (rustFileStem s)
  | .nonUtf8 t => .nonUtf8 t

/-- `Path::file_stem`. -/
def FsPath.file_stem (p : FsPath) : Option OsStr :=
  p.file_name.map OsStr.stem

/-- `OsStr::to_str`: succeeds exactly on valid UTF-8 text. -/
def OsStr.to_str : OsStr → Option String
  | .utf8 s => some s
  | .nonUtf8 _ => none

/-- `Path::with_file_name`: pop the file name when there is one, then push the
new name. -/
def FsPath.with_file_name (p : FsPath) (name : String) : FsPath :=
  let base :=
    match p.components.getLast? with
    | some (.normal _) => p.components.dropLast
    | _ => p.components
  { absolute := p.absolute, components := base ++ [.normal (.utf8 name)] }

/-- The part of `std::fs::Metadata` the source reads. -/
structure FileMeta where
  is_dir : Bool
deriving DecidableEq, Repr

/-- The filesystem at call time: `fs::metadata` either fails (`none`) or
returns the file's metadata. -/
def Fs : Type := FsPath → Option FileMeta

/-- A `cfg` item of the external metadata document
(`scarb_metadata::Cfg`): a key/value pair or a bare name. -/
inductive Cfg where
  | kv (key value : String)
  | name (n : String)
deriving DecidableEq, Repr

/-- The internal flag-set representation
(`cairo_lang_filesystem::cfg::CfgSet`), kept abstract as its entry list. -/
structure CfgSet where
  entries : List Cfg
deriving DecidableEq, Repr

/-- The internal language-edition enumeration
(`cairo_lang_filesystem::db::Edition`); external to the source file, only its
default value matters here. -/
inductive Edition where
  | v2023_01
  | v2023_10
  | v2023_11
  | v2024_07
deriving DecidableEq, Repr

instance : Inhabited Edition := ⟨.v2023_01⟩

/-- `cairo_lang_filesystem::db::ExperimentalFeaturesConfig`: the recognized
experimental-feature toggles. -/
structure ExperimentalFeaturesConfig where
  negative_impls : Bool
  coupons : Bool
deriving DecidableEq, Repr

/-- `cairo_lang_filesystem::db::CrateSettings` as the source populates it. -/
structure CrateSettings where
  edition : Edition
  cfg_set : Option CfgSet
  experimental_features : ExperimentalFeaturesConfig
deriving DecidableEq, Repr

/-- The derived crate descriptor (`crate::project::Crate`). -/
structure Crate where
  name : String
  root : FsPath
  custom_main_file_stem : Option String
  settings : CrateSettings
deriving DecidableEq, Repr

/-- `scarb_metadata::TargetMetadata`, restricted to the consumed field. -/
structure TargetMetadata where
  kind : String
deriving DecidableEq, Repr

/-- `scarb_metadata::CompilationUnitComponentMetadata`. -/
structure ComponentMetadata where
  name : String
  package : String
  source_path : FsPath
  cfg : Option (List Cfg)
deriving DecidableEq, Repr

/-- `scarb_metadata::CompilationUnitMetadata`. -/
structure CompilationUnitMetadata where
  id : String
  target : TargetMetadata
  components : List ComponentMetadata
  cfg : List Cfg
deriving DecidableEq, Repr

/-- `scarb_metadata::PackageMetadata`, restricted to the consumed fields. -/
structure PackageMetadata where
  id : String
  edition : Option String
  experimental_features : List String
  manifest_path : FsPath
deriving DecidableEq, Repr

/-- `scarb_metadata::WorkspaceMetadata`, restricted to the consumed field. -/
structure WorkspaceMetadata where
  members : List String
deriving DecidableEq, Repr

/-- `scarb_metadata::Metadata`, restricted to the consumed fields. -/
structure Metadata where
  compilation_units : List CompilationUnitMetadata
  packages : List PackageMetadata
  workspace : WorkspaceMetadata
deriving DecidableEq, Repr

/-- `Metadata::get_package`. -/
def Metadata.get_package (metadata : Metadata) (id : String) : Option PackageMetadata :=
  metadata.packages.find? (fun package => package.id == id)

/-- The environment of externally-defined behavior the derivation runs
against: the filesystem, and the two serde round-trips of external crates
(`serde_json::to_value`/`from_value` on cfg items, and the edition-string
parse into `Edition`). -/
structure Env where
  fs : Fs
  cfg_convert : List Cfg → Except String CfgSet
  parse_edition : String → Option Edition

/-- The distinct failure reasons of `validate_and_chop_source_path`, one
constructor per `bail!`/`ensure!`/`context` site, carrying the data the
corresponding message interpolates. -/
inductive ChopError where
  | ioError (crate_name : String)
  | isDirectory (crate_name : String) (source_path : FsPath)
  | fsRoot (crate_name : String) (source_path : FsPath)
  | notAbsolute (source_path : FsPath)
  | noFileStem (crate_name : String) (source_path : FsPath)
  | stemNotUtf8 (source_path : FsPath)
deriving DecidableEq, Repr

/-- Perform sanity checks on crate source path, and chop it into directory
path and file stem (`validate_and_chop_source_path`). -/
def validate_and_chop_source_path (fs : Fs) (source_path : FsPath) (crate_name : String) :
    Except ChopError (FsPath × String) :=
  match fs source_path with
  | none => .error (ChopError.ioError crate_name)
  | some metadata =>
    if metadata.is_dir then .error (ChopError.isDirectory crate_name source_path)
    else
      match source_path.parent with
      | none => .error (ChopError.fsRoot crate_name source_path)
      | some root =>
        if !root.is_absolute then .error (ChopError.notAbsolute source_path)
        else
          match source_path.file_stem with
          | none => .error (ChopError.noFileStem crate_name source_path)
          | some file_stem =>
            match file_stem.to_str with
            | none => .error (ChopError.stemNotUtf8 source_path)
            | some file_stem => .ok (root, file_stem)

/-- Get the `Edition` from `PackageMetadata`, or assume the default edition
(`scarb_package_edition`).  The second result records whether the
parse-failure warning was logged. -/
def scarb_package_edition (env : Env) (package : Option PackageMetadata)
    (crate_name : String) : Edition × Bool :=
  match package with
  | none => (default, false)
  | some p =>
    match p.edition with
    | none => (default, false)
    | some e =>
      match env.parse_edition e with
      | none => (default, true)
      | some edition => (edition, false)

/-- Convert a slice of `scarb_metadata::Cfg`s to a
`cairo_lang_filesystem::cfg::CfgSet` (`scarb_cfg_set_to_cairo`): the serde
round-trip, with a failure degraded to `none` by `.ok()`. -/
def scarb_cfg_set_to_cairo (env : Env) (cfg_set : List Cfg) (crate_name : String) :
    Option CfgSet :=
  match env.cfg_convert cfg_set with
  | .ok s => some s
  | .error _ => none

/-- Get `ExperimentalFeaturesConfig` from `PackageMetadata` fields
(`scarb_package_experimental_features`). -/
def scarb_package_experimental_features (package : Option PackageMetadata) :
    ExperimentalFeaturesConfig :=
  let contains := fun (feature : String) =>
    match package with
    | none => false
    | some package => package.experimental_features.any (fun f => f == feature)
  { negative_impls := contains "negative_impls"
    coupons := contains "coupons" }

/-- The per-component body of the loop in `project_crates`: package lookup,
source-path validation and settings derivation, yielding the crate descriptor
or `none` when the component is skipped. -/
def processComponent (env : Env) (metadata : Metadata)
    (compilation_unit : CompilationUnitMetadata) (component : ComponentMetadata) :
    Option Crate :=
  let crate_name := component.name
  let package := metadata.packages.find? (fun package => package.id == component.package)
  match validate_and_chop_source_path env.fs component.source_path crate_name with
  | .error _ => none
  | .ok (root, file_stem) =>
    let settings : CrateSettings :=
      { edition := (scarb_package_edition env package crate_name).1
        cfg_set := scarb_cfg_set_to_cairo env (component.cfg.getD compilation_unit.cfg) crate_name
        experimental_features := scarb_package_experimental_features package }
    let custom_main_file_stem := if file_stem ≠ "lib" then some file_stem else none
    some { name := crate_name
           root := root
           custom_main_file_stem := custom_main_file_stem
           settings := settings }

/-- The inner component loop of `project_crates`, pushing one descriptor per
successfully processed component onto the accumulator. -/
def project_crates_components (env : Env) (metadata : Metadata)
    (compilation_unit : CompilationUnitMetadata) :
    List ComponentMetadata → List Crate → List Crate
  | [], crates => crates
  | component :: rest, crates =>
    match processComponent env metadata compilation_unit component with
    | none => project_crates_components env metadata compilation_unit rest crates
    | some cr => project_crates_components env metadata compilation_unit rest (crates ++ [cr])

/-- The outer compilation-unit loop of `project_crates`, skipping
`cairo-plugin` units. -/
def project_crates_units (env : Env) (metadata : Metadata) :
    List CompilationUnitMetadata → List Crate → List Crate
  | [], crates => crates
  | compilation_unit :: rest, crates =>
    if compilation_unit.target.kind == "cairo-plugin" then
      project_crates_units env metadata rest crates
    else
      project_crates_units env metadata rest
        (project_crates_components env metadata compilation_unit
          compilation_unit.components crates)

/-- Gets the list of crates from a Scarb-based project (`project_crates`). -/
def project_crates (env : Env) (metadata : Option Metadata) : List Crate :=
  match metadata with
  | none => []
  | some metadata => project_crates_units env metadata metadata.compilation_units []

/-- `salsa::Durability` as the source uses it. -/
inductive Durability where
  | low
  | medium
  | high
deriving DecidableEq, Repr

/-- The side effects `scarb_metadata` performs against the query engine and
the diagnostics sink, in order. -/
inductive SalsaEffect where
  | digestDep (path : FsPath)
  | syntheticRead (d : Durability)
  | untrackedRead
  | warnLog (msg : String)
  | errorLog (msg : String)
deriving DecidableEq, Repr

/-- `crate::project::project_manifest_path::ProjectManifestPath`. -/
inductive ProjectManifestPath where
  | cairoProject (path : FsPath)
  | scarb (path : FsPath)
deriving DecidableEq, Repr

/-- `crate::toolchain::scarb::SCARB_LOCK`. -/
def SCARB_LOCK : String := "Scarb.lock"

/-- The inputs `scarb_metadata` reads from the database: the interned project
manifest path and the toolchain's `scarb metadata` invocation. -/
structure ScarbDb where
  project_manifest_path : ProjectManifestPath
  toolchain_metadata : FsPath → Except String Metadata

/-- Gets `scarb metadata` for the given project (`scarb_metadata`), returning
the fetched metadata together with the ordered list of side effects. -/
def scarb_metadata (db : ScarbDb) : Option Metadata × List SalsaEffect :=
  match db.project_manifest_path with
  | .cairoProject _ =>
    (none, [.warnLog "attempted to get scarb metadata for non-scarb project"])
  | .scarb manifest_path =>
    let effects : List SalsaEffect :=
      [.digestDep manifest_path,
       .digestDep (manifest_path.with_file_name SCARB_LOCK),
       .syntheticRead .low]
    match db.toolchain_metadata manifest_path with
    | .error e =>
      (none, effects ++ [.untrackedRead, .errorLog e])
    | .ok metadata =>
      let member_deps := metadata.workspace.members.filterMap (fun member =>
        (metadata.get_package member).map
          (fun package => SalsaEffect.digestDep package.manifest_path))
      (some metadata, effects ++ member_deps)

/-- The crates contributed by one compilation unit: nothing for a
`cairo-plugin` unit, otherwise one descriptor per valid component. -/
def unit_crates (env : Env) (metadata : Metadata)
    (compilation_unit : CompilationUnitMetadata) : List Crate :=
  if compilation_unit.target.kind == "cairo-plugin" then []
  else compilation_unit.components.filterMap (processComponent env metadata compilation_unit)

/-! Concrete fixtures used to evaluate the development on closed inputs. -/

/-- `/abs/core/src/lib.cairo`. -/
def pathLibCairo : FsPath :=
  { absolute := true
    components := [.normal (.utf8 "abs"), .normal (.utf8 "core"), .normal (.utf8 "src"),
                   .normal (.utf8 "lib.cairo")] }

/-- `/abs/core/src`. -/
def rootCoreSrc : FsPath :=
  { absolute := true
    components := [.normal (.utf8 "abs"), .normal (.utf8 "core"), .normal (.utf8 "src")] }

/-- `/abs/pkg/src/mypkg_main.cairo`. -/
def pathMypkgMain : FsPath :=
  { absolute := true
    components := [.normal (.utf8 "abs"), .normal (.utf8 "pkg"), .normal (.utf8 "src"),
                   .normal (.utf8 "mypkg_main.cairo")] }

/-- `/abs/pkg/src`. -/
def rootPkgSrc : FsPath :=
  { absolute := true
    components := [.normal (.utf8 "abs"), .normal (.utf8 "pkg"), .normal (.utf8 "src")] }

/-- `/abs/pkg`, a directory in the fixture filesystem. -/
def pathDir : FsPath :=
  { absolute := true
    components := [.normal (.utf8 "abs"), .normal (.utf8 "pkg")] }

/-- `/abs/Scarb.toml`. -/
def manifestPath0 : FsPath :=
  { absolute := true
    components := [.normal (.utf8 "abs"), .normal (.utf8 "Scarb.toml")] }

/-- Fixture filesystem: the two entry files exist as regular files, `/abs/pkg`
is a directory, everything else fails to stat. -/
def fs0 : Fs := fun p =>
  if p = pathLibCairo ∨ p = pathMypkgMain then some { is_dir := false }
  else if p = pathDir then some { is_dir := true }
  else none

/-- Fixture edition parse: recognizes only `2024_07`. -/
def parseEdition0 : String → Option Edition := fun e =>
  if e = "2024_07" then some .v2024_07 else none

/-- Fixture environment whose cfg conversion always succeeds. -/
def env0 : Env :=
  { fs := fs0
    cfg_convert := fun cfgs => .ok { entries := cfgs }
    parse_edition := parseEdition0 }

/-- Fixture environment whose cfg conversion always fails. -/
def envCfgFail : Env :=
  { fs := fs0
    cfg_convert := fun _ => .error "conversion mismatch"
    parse_edition := parseEdition0 }

/-- The `core` component of the fixtures. -/
def compCore : ComponentMetadata :=
  { name := "core", package := "core", source_path := pathLibCairo, cfg := none }

/-- The `mypkg` component of the fixtures. -/
def compMypkg : ComponentMetadata :=
  { name := "mypkg", package := "mypkg", source_path := pathMypkgMain, cfg := none }

/-- A component whose source path is the directory `/abs/pkg`. -/
def compBad : ComponentMetadata :=
  { name := "bad", package := "bad", source_path := pathDir, cfg := none }

/-- A non-plugin compilation unit holding `core` and `mypkg`. -/
def unit0 : CompilationUnitMetadata :=
  { id := "unit0", target := { kind := "lib" }, components := [compCore, compMypkg], cfg := [] }

/-- A non-plugin compilation unit holding `core`, the bad component and `mypkg`. -/
def unitMixed : CompilationUnitMetadata :=
  { id := "unitMixed", target := { kind := "lib" }
    components := [compCore, compBad, compMypkg], cfg := [] }

/-- A `cairo-plugin` compilation unit. -/
def unitPlugin : CompilationUnitMetadata :=
  { id := "unitPlugin", target := { kind := "cairo-plugin" }
    components := [compCore], cfg := [] }

/-- The `core` package, with a parsable edition. -/
def pkgCore : PackageMetadata :=
  { id := "core", edition := some "2024_07", experimental_features := []
    manifest_path := manifestPath0 }

/-- The `mypkg` package, with no declared edition. -/
def pkgMypkg : PackageMetadata :=
  { id := "mypkg", edition := none, experimental_features := []
    manifest_path := manifestPath0 }

/-- A package with an unparsable edition string. -/
def pkgBadEdition : PackageMetadata :=
  { id := "weird", edition := some "not-an-edition", experimental_features := []
    manifest_path := manifestPath0 }

/-- A package declaring the `negative_impls` experimental feature. -/
def pkgFeat : PackageMetadata :=
  { id := "feat", edition := none, experimental_features := ["negative_impls"]
    manifest_path := manifestPath0 }

/-- Fixture metadata: one non-plugin unit with two valid components. -/
def md0 : Metadata :=
  { compilation_units := [unit0], packages := [pkgCore, pkgMypkg]
    workspace := { members := [] } }

/-- Fixture metadata: one non-plugin unit with a bad component between two
valid ones. -/
def md1 : Metadata :=
  { compilation_units := [unitMixed], packages := [pkgCore, pkgMypkg]
    workspace := { members := [] } }

/-- Fixture metadata: a plugin unit followed by a non-plugin unit. -/
def mdPlugin : Metadata :=
  { compilation_units := [unitPlugin, unit0], packages := [pkgCore, pkgMypkg]
    workspace := { members := [] } }

/-- A database whose toolchain invocation fails. -/
def dbFail : ScarbDb :=
  { project_manifest_path := .scarb manifestPath0
    toolchain_metadata := fun _ => .error "scarb failed" }

/-- A database whose toolchain invocation succeeds with the fixture metadata. -/
def dbOk : ScarbDb :=
  { project_manifest_path := .scarb manifestPath0
    toolchain_metadata := fun _ => .ok md0 }

/-- The descriptor derived for `compCore` under the failing cfg conversion. -/
def crCoreFail : Crate :=
  { name := "core", root := rootCoreSrc, custom_main_file_stem := none
    settings :=
      { edition := .v2024_07, cfg_set := none
        experimental_features := { negative_impls := false, coupons := false } } }

theorem project_crates_components_eq (env : Env) (metadata : Metadata)
    (compilation_unit : CompilationUnitMetadata) (components : List ComponentMetadata)
    (crates : List Crate) :
    project_crates_components env metadata compilation_unit components crates =
      crates ++ components.filterMap (processComponent env metadata compilation_unit) := by
  induction components generalizing crates with
  | nil => simp [project_crates_components]
  | cons component rest ih =>
    simp only [project_crates_components, List.filterMap_cons]
    cases h : processComponent env metadata compilation_unit component with
    | none => simp [ih]
    | some cr => simp [ih]

theorem project_crates_units_eq (env : Env) (metadata : Metadata)
    (units : List CompilationUnitMetadata) (crates : List Crate) :
    project_crates_units env metadata units crates =
      crates ++ units.flatMap (unit_crates env metadata) := by
  induction units generalizing crates with
  | nil => simp [project_crates_units]
  | cons compilation_unit rest ih =>
    simp only [project_crates_units, List.flatMap_cons, unit_crates]
    by_cases h : compilation_unit.target.kind == "cairo-plugin"
    · simp [h, ih]
    · simp only [h, if_neg, Bool.false_eq_true, ite_false, ih,
        project_crates_components_eq]
      simp [List.append_assoc]

theorem project_crates_eq (env : Env) (metadata : Metadata) :
    project_crates env (some metadata) =
      metadata.compilation_units.flatMap (unit_crates env metadata) := by
  simp [project_crates, project_crates_units_eq]

theorem processComponent_ok (env : Env) (metadata : Metadata)
    (cu : CompilationUnitMetadata) (c : ComponentMetadata) (root : FsPath) (stem : String)
    (h : validate_and_chop_source_path env.fs c.source_path c.name = .ok (root, stem)) :
    processComponent env metadata cu c =
      some { name := c.name
             root := root
             custom_main_file_stem := if stem ≠ "lib" then some stem else none
             settings :=
               { edition := (scarb_package_edition env
                   (metadata.packages.find? (fun p => p.id == c.package)) c.name).1
                 cfg_set := scarb_cfg_set_to_cairo env (c.cfg.getD cu.cfg) c.name
                 experimental_features := scarb_package_experimental_features
                   (metadata.packages.find? (fun p => p.id == c.package)) } } := by
  simp [processComponent, h]

theorem processComponent_err (env : Env) (metadata : Metadata)
    (cu : CompilationUnitMetadata) (c : ComponentMetadata) (e : ChopError)
    (h : validate_and_chop_source_path env.fs c.source_path c.name = .error e) :
    processComponent env metadata cu c = none := by
  simp [processComponent, h]

theorem components_filterMap_names (env : Env) (metadata : Metadata)
    (cu : CompilationUnitMetadata) (components : List ComponentMetadata)
    (h : ∀ c ∈ components, ∃ root stem,
      validate_and_chop_source_path env.fs c.source_path c.name = .ok (root, stem)) :
    (components.filterMap (processComponent env metadata cu)).map Crate.name =
      components.map ComponentMetadata.name := by
  induction components with
  | nil => simp
  | cons c rest ih =>
    obtain ⟨root, stem, hc⟩ := h c (by simp)
    rw [List.filterMap_cons]
    simp [processComponent_ok env metadata cu c root stem hc,
      ih (fun x hx => h x (by simp [hx]))]

theorem components_filterMap_length (env : Env) (metadata : Metadata)
    (cu : CompilationUnitMetadata) (components : List ComponentMetadata)
    (h : ∀ c ∈ components, ∃ root stem,
      validate_and_chop_source_path env.fs c.source_path c.name = .ok (root, stem)) :
    (components.filterMap (processComponent env metadata cu)).length =
      components.length := by
  have hn := components_filterMap_names env metadata cu components h
  calc (components.filterMap (processComponent env metadata cu)).length
      = ((components.filterMap (processComponent env metadata cu)).map Crate.name).length := by
        simp
    _ = components.length := by rw [hn]; simp

theorem units_crates_count_order (env : Env) (metadata : Metadata)
    (units : List CompilationUnitMetadata)
    (hvalid : ∀ cu ∈ units, cu.target.kind ≠ "cairo-plugin" →
      ∀ c ∈ cu.components, ∃ root stem,
        validate_and_chop_source_path env.fs c.source_path c.name = .ok (root, stem)) :
    ((units.flatMap (unit_crates env metadata)).length =
      ((units.filter (fun cu => !(cu.target.kind == "cairo-plugin"))).map
        (fun cu => cu.components.length)).sum) ∧
    ((units.flatMap (unit_crates env metadata)).map Crate.name =
      (units.filter (fun cu => !(cu.target.kind == "cairo-plugin"))).flatMap
        (fun cu => cu.components.map ComponentMetadata.name)) := by
  induction units with
  | nil => simp
  | cons cu rest ih =>
    have hrest := ih (fun u hu => hvalid u (by simp [hu]))
    by_cases h : cu.target.kind = "cairo-plugin"
    · simp [unit_crates, h, hrest.1, hrest.2]
    · have hcomps := hvalid cu (by simp) h
      have hb : (cu.target.kind == "cairo-plugin") = false := by
        simp [h]
      constructor
      · simp [unit_crates, hb, hrest.1,
          components_filterMap_length env metadata cu cu.components hcomps]
      · simp [unit_crates, hb, hrest.2,
          components_filterMap_names env metadata cu cu.components hcomps]

/-- C4: for every source path and component name, the component validator
performs exactly the six checks in order — stat succeeds, not a directory,
parent exists, parent absolute, file stem exists, file stem is UTF-8 — each
check producing its own distinct failure reason, and on full success returns
the pair (parent directory, file stem). -/
theorem c4_validator_checks (fs : Fs) (source_path : FsPath) (crate_name : String) :
    (fs source_path = none →
      validate_and_chop_source_path fs source_path crate_name =
        .error (.ioError crate_name)) ∧
    (∀ m, fs source_path = some m → m.is_dir = true →
      validate_and_chop_source_path fs source_path crate_name =
        .error (.isDirectory crate_name source_path)) ∧
    (∀ m, fs source_path = some m → m.is_dir = false → source_path.parent = none →
      validate_and_chop_source_path fs source_path crate_name =
        .error (.fsRoot crate_name source_path)) ∧
    (∀ m root, fs source_path = some m → m.is_dir = false →
      source_path.parent = some root → root.is_absolute = false →
      validate_and_chop_source_path fs source_path crate_name =
        .error (.notAbsolute source_path)) ∧
    (∀ m root, fs source_path = some m → m.is_dir = false →
      source_path.parent = some root → root.is_absolute = true →
      source_path.file_stem = none →
      validate_and_chop_source_path fs source_path crate_name =
        .error (.noFileStem crate_name source_path)) ∧
    (∀ m root t, fs source_path = some m → m.is_dir = false →
      source_path.parent = some root → root.is_absolute = true →
      source_path.file_stem = some (.nonUtf8 t) →
      validate_and_chop_source_path fs source_path crate_name =
        .error (.stemNotUtf8 source_path)) ∧
    (∀ m root s, fs source_path = some m → m.is_dir = false →
      source_path.parent = some root → root.is_absolute = true →
      source_path.file_stem = some (.utf8 s) →
      validate_and_chop_source_path fs source_path crate_name = .ok (root, s)) ∧
    List.Pairwise (· ≠ ·)
      [ChopError.ioError crate_name, ChopError.isDirectory crate_name source_path,
       ChopError.fsRoot crate_name source_path, ChopError.notAbsolute source_path,
       ChopError.noFileStem crate_name source_path, ChopError.stemNotUtf8 source_path] := by
  refine ⟨?_, ?_, ?_, ?_, ?_, ?_, ?_, ?_⟩
  · intro h1
    simp [validate_and_chop_source_path, h1]
  · intro m h1 h2
    simp [validate_and_chop_source_path, h1, h2]
  · intro m h1 h2 h3
    simp [validate_and_chop_source_path, h1, h2, h3]
  · intro m root h1 h2 h3 h4
    simp [validate_and_chop_source_path, h1, h2, h3, h4]
  · intro m root h1 h2 h3 h4 h5
    simp [validate_and_chop_source_path, h1, h2, h3, h4, h5]
  · intro m root t h1 h2 h3 h4 h5
    simp [validate_and_chop_source_path, h1, h2, h3, h4, h5, OsStr.to_str]
  · intro m root s h1 h2 h3 h4 h5
    simp [validate_and_chop_source_path, h1, h2, h3, h4, h5, OsStr.to_str]
  · simp

/-- Witness for C4: on the fixture filesystem, validating
`/abs/core/src/lib.cairo` succeeds with root `/abs/core/src` and stem
`lib`. -/
theorem c4_validator_checks_witness :
    validate_and_chop_source_path fs0 pathLibCairo "core" = .ok (rootCoreSrc, "lib") := by
  exact (c4_validator_checks fs0 pathLibCairo "core").2.2.2.2.2.2.1
    { is_dir := false } rootCoreSrc "lib" rfl rfl rfl rfl rfl

/-- C6: for every component that yields a descriptor, the configuration-flag
set used for settings derivation is the component's own flags when present,
otherwise the compilation unit's flags; and when the structural conversion of
those flags fails, the resulting settings carry no flag set at all. -/
theorem c6_cfg_flag_selection (env : Env) (metadata : Metadata)
    (cu : CompilationUnitMetadata) (c : ComponentMetadata) (cr : Crate)
    (h : processComponent env metadata cu c = some cr) :
    cr.settings.cfg_set =
      scarb_cfg_set_to_cairo env
        (match c.cfg with
         | some cfg => cfg
         | none => cu.cfg) c.name ∧
    (∀ e, env.cfg_convert
        (match c.cfg with
         | some cfg => cfg
         | none => cu.cfg) = .error e →
      cr.settings.cfg_set = none) := by
  have hgd : c.cfg.getD cu.cfg =
      (match c.cfg with
       | some cfg => cfg
       | none => cu.cfg) := by
    cases c.cfg <;> rfl
  cases hv : validate_and_chop_source_path env.fs c.source_path c.name with
  | error e =>
    rw [processComponent_err env metadata cu c e hv] at h
    exact absurd h (by simp)
  | ok t =>
    obtain ⟨root, stem⟩ := t
    rw [processComponent_ok env metadata cu c root stem hv] at h
    obtain rfl : _ = cr := Option.some.inj h
    refine ⟨by simp [hgd], ?_⟩
    intro e he
    simp [hgd, scarb_cfg_set_to_cairo, he]

/-- Witness for C6: under the failing cfg conversion the `core` component
still yields a descriptor, whose settings carry no flag set. -/
theorem c6_cfg_flag_selection_witness :
    processComponent envCfgFail md0 unit0 compCore = some crCoreFail ∧
    crCoreFail.settings.cfg_set = none := by
  have hp : processComponent envCfgFail md0 unit0 compCore = some crCoreFail := by decide
  exact ⟨hp, (c6_cfg_flag_selection envCfgFail md0 unit0 compCore crCoreFail hp).2
    "conversion mismatch" rfl⟩

/-- C7: the derived edition is the package's declared edition when it parses,
and the default edition when the package lookup failed, the edition field is
absent, or it is present but unparsable; the warning flag is set exactly in
the present-but-unparsable case, and the mapping is total. -/
theorem c7_edition_fallback (env : Env) (crate_name : String) :
    (scarb_package_edition env none crate_name = (default, false)) ∧
    (∀ p : PackageMetadata, p.edition = none →
      scarb_package_edition env (some p) crate_name = (default, false)) ∧
    (∀ p e, p.edition = some e → env.parse_edition e = none →
      scarb_package_edition env (some p) crate_name = (default, true)) ∧
    (∀ p e ed, p.edition = some e → env.parse_edition e = some ed →
      scarb_package_edition env (some p) crate_name = (ed, false)) ∧
    (∀ package, (scarb_package_edition env package crate_name).2 = true ↔
      ∃ p e, package = some p ∧ p.edition = some e ∧ env.parse_edition e = none) := by
  refine ⟨rfl, ?_, ?_, ?_, ?_⟩
  · intro p hp
    simp [scarb_package_edition, hp]
  · intro p e hp hparse
    simp [scarb_package_edition, hp, hparse]
  · intro p e ed hp hparse
    simp [scarb_package_edition, hp, hparse]
  · intro package
    cases package with
    | none => simp [scarb_package_edition]
    | some p =>
      cases hp : p.edition with
      | none => simp [scarb_package_edition, hp]
      | some e =>
        cases hparse : env.parse_edition e with
        | none => simp [scarb_package_edition, hp, hparse]
        | some ed => simp [scarb_package_edition, hp, hparse]

/-- Witness for C7: a parsable edition is taken verbatim, an unparsable one
falls back to the default with the warning flag set. -/
theorem c7_edition_fallback_witness :
    scarb_package_edition env0 (some pkgCore) "core" = (.v2024_07, false) ∧
    scarb_package_edition env0 (some pkgBadEdition) "weird" = (default, true) := by
  have h := c7_edition_fallback env0 "core"
  have h2 := c7_edition_fallback env0 "weird"
  exact ⟨h.2.2.2.1 pkgCore "2024_07" .v2024_07 rfl rfl,
    h2.2.2.1 pkgBadEdition "not-an-edition" rfl rfl⟩

/-- C8: each recognized experimental-feature toggle is true iff the resolved
package's feature list contains that exact name, and both toggles are false
when the package lookup failed. -/
theorem c8_experimental_toggles (package : Option PackageMetadata) :
    ((scarb_package_experimental_features package).negative_impls = true ↔
      ∃ p, package = some p ∧ "negative_impls" ∈ p.experimental_features) ∧
    ((scarb_package_experimental_features package).coupons = true ↔
      ∃ p, package = some p ∧ "coupons" ∈ p.experimental_features) ∧
    (scarb_package_experimental_features none =
      { negative_impls := false, coupons := false }) := by
  refine ⟨?_, ?_, rfl⟩ <;>
    cases package <;>
      simp [scarb_package_experimental_features, List.any_eq_true]

/-- Witness for C8: a package listing `negative_impls` gets that toggle and
not `coupons`; a failed lookup gets neither. -/
theorem c8_experimental_toggles_witness :
    (scarb_package_experimental_features (some pkgFeat)).negative_impls = true ∧
    (scarb_package_experimental_features (some pkgFeat)).coupons = false ∧
    scarb_package_experimental_features none =
      { negative_impls := false, coupons := false } := by
  refine ⟨(c8_experimental_toggles (some pkgFeat)).1.mpr ⟨pkgFeat, rfl, by decide⟩,
    by decide, (c8_experimental_toggles none).2.2⟩

/-- C9: for every successfully validated component the descriptor's custom
main-file stem is present exactly when the validated file stem differs from
`lib`, and then equals that stem. -/
theorem c9_custom_main_file_stem (env : Env) (metadata : Metadata)
    (cu : CompilationUnitMetadata) (c : ComponentMetadata) (root : FsPath) (stem : String)
    (h : validate_and_chop_source_path env.fs c.source_path c.name = .ok (root, stem)) :
    ∃ cr, processComponent env metadata cu c = some cr ∧
      cr.custom_main_file_stem = (if stem = "lib" then none else some stem) ∧
      (cr.custom_main_file_stem ≠ none ↔ stem ≠ "lib") := by
  refine ⟨_, processComponent_ok env metadata cu c root stem h, ?_, ?_⟩ <;>
    by_cases hs : stem = "lib" <;> simp [hs]

/-- Witness for C9: `/abs/core/src/lib.cairo` (stem `lib`) yields no custom
main stem, `/abs/pkg/src/mypkg_main.cairo` yields custom main stem
`mypkg_main`. -/
theorem c9_custom_main_file_stem_witness :
    (∃ cr, processComponent env0 md0 unit0 compCore = some cr ∧
      cr.custom_main_file_stem = none) ∧
    (∃ cr, processComponent env0 md0 unit0 compMypkg = some cr ∧
      cr.custom_main_file_stem = some "mypkg_main") := by
  obtain ⟨cr1, hcr1, hstem1, -⟩ :=
    c9_custom_main_file_stem env0 md0 unit0 compCore rootCoreSrc "lib" rfl
  obtain ⟨cr2, hcr2, hstem2, -⟩ :=
    c9_custom_main_file_stem env0 md0 unit0 compMypkg rootPkgSrc "mypkg_main" rfl
  exact ⟨⟨cr1, hcr1, by simpa using hstem1⟩, ⟨cr2, hcr2, by simpa using hstem2⟩⟩

/-- C10: a compilation unit contributes nothing exactly when its target kind
is the string `cairo-plugin`; a unit with any other kind is processed and
contributes one descriptor per valid component. -/
theorem c10_plugin_unit_skip (env : Env) (metadata : Metadata) :
    (∀ cu : CompilationUnitMetadata, cu.target.kind = "cairo-plugin" →
      unit_crates env metadata cu = []) ∧
    (∀ cu : CompilationUnitMetadata, cu.target.kind ≠ "cairo-plugin" →
      unit_crates env metadata cu =
        cu.components.filterMap (processComponent env metadata cu)) ∧
    project_crates env (some metadata) =
      metadata.compilation_units.flatMap (unit_crates env metadata) := by
  refine ⟨?_, ?_, project_crates_eq env metadata⟩
  · intro cu h
    simp [unit_crates, h]
  · intro cu h
    simp [unit_crates, h]

/-- Witness for C10: in the fixture with a plugin unit followed by a library
unit, the plugin unit contributes nothing and the library unit contributes
its two descriptors. -/
theorem c10_plugin_unit_skip_witness :
    unit_crates env0 mdPlugin unitPlugin = [] ∧
    (unit_crates env0 mdPlugin unit0).map Crate.name = ["core", "mypkg"] ∧
    (project_crates env0 (some mdPlugin)).map Crate.name = ["core", "mypkg"] := by
  have h := c10_plugin_unit_skip env0 mdPlugin
  refine ⟨h.1 unitPlugin rfl, by decide, ?_⟩
  rw [h.2.2]
  decide

/-- C1: for every well-formed metadata document in which every component of
every non-plugin compilation unit validates and resolves its package, the
derivation produces exactly one descriptor per such component, ordered by
compilation-unit document order and, within a unit, component document
order. -/
theorem c1_descriptor_count_and_order (env : Env) (metadata : Metadata)
    (hvalid : ∀ cu ∈ metadata.compilation_units, cu.target.kind ≠ "cairo-plugin" →
      ∀ c ∈ cu.components,
        (∃ root stem, validate_and_chop_source_path env.fs c.source_path c.name =
          .ok (root, stem)) ∧
        (∃ p, metadata.packages.find? (fun package => package.id == c.package) = some p)) :
    ((project_crates env (some metadata)).length =
      ((metadata.compilation_units.filter
          (fun cu => !(cu.target.kind == "cairo-plugin"))).map
        (fun cu => cu.components.length)).sum) ∧
    ((project_crates env (some metadata)).map Crate.name =
      (metadata.compilation_units.filter
          (fun cu => !(cu.target.kind == "cairo-plugin"))).flatMap
        (fun cu => cu.components.map ComponentMetadata.name)) := by
  rw [project_crates_eq]
  exact units_crates_count_order env metadata metadata.compilation_units
    (fun cu hcu hk c hc => (hvalid cu hcu hk c hc).1)

/-- Witness for C1: the fixture document with one non-plugin unit holding two
valid components yields exactly those two descriptors, in document order. -/
theorem c1_descriptor_count_and_order_witness :
    ((project_crates env0 (some md0)).length =
      ((md0.compilation_units.filter
          (fun cu => !(cu.target.kind == "cairo-plugin"))).map
        (fun cu => cu.components.length)).sum) ∧
    ((project_crates env0 (some md0)).map Crate.name =
      (md0.compilation_units.filter
          (fun cu => !(cu.target.kind == "cairo-plugin"))).flatMap
        (fun cu => cu.components.map ComponentMetadata.name)) := by
  refine c1_descriptor_count_and_order env0 md0 ?_
  intro cu hcu hk c hc
  have hcu' : cu = unit0 := by
    simpa [md0] using hcu
  subst hcu'
  have hc' : c = compCore ∨ c = compMypkg := by
    simpa [unit0] using hc
  rcases hc' with rfl | rfl
  · exact ⟨⟨rootCoreSrc, "lib", rfl⟩, ⟨pkgCore, by decide⟩⟩
  · exact ⟨⟨rootPkgSrc, "mypkg_main", rfl⟩, ⟨pkgMypkg, by decide⟩⟩

/-- C5: a component whose source path fails validation yields no descriptor,
while every sibling component of the same non-plugin compilation unit keeps
its contribution, and derivation of the rest of the workspace proceeds. -/
theorem c5_invalid_component_skipped (env : Env) (metadata : Metadata)
    (L1 L2 : List CompilationUnitMetadata) (cu : CompilationUnitMetadata)
    (A B : List ComponentMetadata) (c : ComponentMetadata) (e : ChopError)
    (hunits : metadata.compilation_units = L1 ++ cu :: L2)
    (hkind : cu.target.kind ≠ "cairo-plugin")
    (hcomps : cu.components = A ++ c :: B)
    (hfail : validate_and_chop_source_path env.fs c.source_path c.name = .error e) :
    (project_crates env (some metadata) =
      L1.flatMap (unit_crates env metadata) ++
        (A.filterMap (processComponent env metadata cu) ++
          B.filterMap (processComponent env metadata cu)) ++
        L2.flatMap (unit_crates env metadata)) ∧
    (∀ c' ∈ A ++ B, ∀ root stem,
      validate_and_chop_source_path env.fs c'.source_path c'.name = .ok (root, stem) →
      (processComponent env metadata cu c').isSome) := by
  constructor
  · rw [project_crates_eq, hunits]
    have hb : (cu.target.kind == "cairo-plugin") = false := by
      simp [hkind]
    have hskip : processComponent env metadata cu c = none :=
      processComponent_err env metadata cu c e hfail
    simp [unit_crates, hb, hcomps, List.filterMap_append, List.filterMap_cons, hskip,
      List.append_assoc]
  · intro c' _ root stem hok
    rw [processComponent_ok env metadata cu c' root stem hok]
    rfl

/-- Witness for C5: in the fixture unit holding `core`, the bad directory
component and `mypkg`, the bad component is dropped and both siblings keep
their descriptors. -/
theorem c5_invalid_component_skipped_witness :
    validate_and_chop_source_path env0.fs compBad.source_path compBad.name =
      .error (.isDirectory "bad" pathDir) ∧
    (project_crates env0 (some md1)).map Crate.name = ["core", "mypkg"] := by
  have h := c5_invalid_component_skipped env0 md1 [] [] unitMixed
    [compCore] [compMypkg] compBad (.isDirectory "bad" pathDir)
    rfl (by decide) rfl rfl
  refine ⟨rfl, ?_⟩
  rw [h.1]
  decide

/-- C2: whenever the metadata fetch yields no metadata — because the project
is not Scarb-managed or because the toolchain invocation fails — the
derivation returns the empty crate list; both functions are total, so no
error escapes the metadata-fetch boundary. -/
theorem c2_no_metadata_empty_crates (env : Env) (db : ScarbDb)
    (hfail : ∀ p, db.project_manifest_path = .scarb p →
      ∃ e, db.toolchain_metadata p = .error e) :
    (scarb_metadata db).1 = none ∧
    project_crates env (scarb_metadata db).1 = [] := by
  cases hm : db.project_manifest_path with
  | cairoProject p =>
    simp [scarb_metadata, hm, project_crates]
  | scarb p =>
    obtain ⟨e, he⟩ := hfail p hm
    simp [scarb_metadata, hm, he, project_crates]

/-- Witness for C2: the fixture database whose toolchain invocation fails
yields no metadata and an empty crate list. -/
theorem c2_no_metadata_empty_crates_witness :
    (scarb_metadata dbFail).1 = none ∧
    project_crates env0 (scarb_metadata dbFail).1 = [] :=
  c2_no_metadata_empty_crates env0 dbFail (fun _ _ => ⟨"scarb failed", rfl⟩)

/-- Counterexample to C3 as stated: on a Scarb project whose toolchain
invocation fails, the fetch still reports the low-durability synthetic read
(it is issued unconditionally before the invocation), in addition to the
untracked read — the untracked read does not replace the low-durability
mark. -/
theorem c3_counterexample :
    dbFail.project_manifest_path = .scarb manifestPath0 ∧
    dbFail.toolchain_metadata manifestPath0 = .error "scarb failed" ∧
    (scarb_metadata dbFail).1 = none ∧
    SalsaEffect.syntheticRead .low ∈ (scarb_metadata dbFail).2 ∧
    SalsaEffect.untrackedRead ∈ (scarb_metadata dbFail).2 := by
  refine ⟨rfl, rfl, rfl, ?_, ?_⟩ <;> decide

/-- C3 (amended): on every Scarb-managed project the fetch marks the
computation's cache durability as low; when the toolchain invocation fails it
additionally reports an untracked read, and when it succeeds no untracked
read is reported. -/
theorem c3_durability_marks (db : ScarbDb) (p : FsPath)
    (hscarb : db.project_manifest_path = .scarb p) :
    SalsaEffect.syntheticRead .low ∈ (scarb_metadata db).2 ∧
    ((∃ e, db.toolchain_metadata p = .error e) →
      SalsaEffect.untrackedRead ∈ (scarb_metadata db).2) ∧
    ((∃ md, db.toolchain_metadata p = .ok md) →
      SalsaEffect.untrackedRead ∉ (scarb_metadata db).2) := by
  cases ht : db.toolchain_metadata p with
  | error e =>
    refine ⟨by simp [scarb_metadata, hscarb, ht], fun _ => by simp [scarb_metadata, hscarb, ht],
      ?_⟩
    rintro ⟨md, hmd⟩
    exact Except.noConfusion hmd
  | ok md =>
    refine ⟨by simp [scarb_metadata, hscarb, ht], ?_, ?_⟩
    · rintro ⟨e, he⟩
      exact Except.noConfusion he
    · intro _ hmem
      simp only [scarb_metadata, hscarb, ht] at hmem
      rcases List.mem_append.mp hmem with h | h
      · simp at h
      · obtain ⟨member, hmember, heq⟩ := List.mem_filterMap.mp h
        cases hgp : md.get_package member with
        | none => simp [hgp] at heq
        | some package => simp [hgp] at heq

/-- Witness for C3 (amended): instantiated on the fixture database whose
toolchain invocation fails. -/
theorem c3_durability_marks_witness :
    SalsaEffect.syntheticRead .low ∈ (scarb_metadata dbFail).2 ∧
    ((∃ e, dbFail.toolchain_metadata manifestPath0 = .error e) →
      SalsaEffect.untrackedRead ∈ (scarb_metadata dbFail).2) ∧
    ((∃ md, dbFail.toolchain_metadata manifestPath0 = .ok md) →
      SalsaEffect.untrackedRead ∉ (scarb_metadata dbFail).2) :=
  c3_durability_marks dbFail manifestPath0 rfl

end ScarbProject
